import Mathlib

/-!
Shallow embedding of the Bedrock ledger-advancement daemon
(`pkg/network/ledger.go`, `internal/cli/slate.go`, `internal/cli/node.go`).

The RPC client is modelled as an oracle: each call to `client.Request`
(and the subsequent `resp.GetResult`) is summarised by an `RpcOutcome`
supplied from outside.  Durations (`time.Duration`, an `int64` of
nanoseconds in Go) are modelled as `Int`; the `uint64` counters wrap
modulo `2 ^ 64` exactly as Go's `atomic.AddUint64` does.
-/

namespace Bedrock

/-- Outcome of one `ledger_accept` round trip as seen by
`LedgerService.advanceLedger`: the transport request may fail
(`client.Request` returns an error), decoding may fail
(`resp.GetResult` returns an error), or the call succeeds and yields
the `ledger_current_index` field of the response. -/
inductive RpcOutcome where
  | reqErr (msg : String)
  | parseErr (msg : String)
  | ok (ledgerIndex : Nat)
deriving DecidableEq, Repr

/-- `true` on the two failure constructors of `RpcOutcome`. -/
def RpcOutcome.isFailure : RpcOutcome → Bool
  | .reqErr _ => true
  | .parseErr _ => true
  | .ok _ => false

/-- The mutable fields of the Go `LedgerService` struct.  `cancelSet`
models whether the `cancel context.CancelFunc` field is non-nil.  The
`client` field is not represented: the RPC client is an oracle. -/
structure LedgerService where
  interval : Int
  running : Bool
  cancelSet : Bool
  ledgersAdvanced : Nat
  lastLedgerIndex : Nat
  lastError : String
deriving DecidableEq, Repr

/-- The `LedgerServiceStatus` snapshot returned by `GetStatus`. -/
structure LedgerServiceStatus where
  Running : Bool
  Interval : Int
  LedgersAdvanced : Nat
  LastLedgerIndex : Nat
  LastError : String
deriving DecidableEq, Repr

/-- `NewLedgerService`: building the RPC client config may fail (the
outcome of `rpc.NewClientConfig` is an oracle argument); on success the
service starts from Go zero values with the given interval.  Note that
the interval is *not* validated. -/
def NewLedgerService (cfgResult : Except String Unit) (interval : Int) :
    Except String LedgerService :=
  match cfgResult with
  | .error e => .error ("failed to create RPC client config: " ++ e)
  | .ok _ =>
      .ok { interval := interval, running := false, cancelSet := false,
            ledgersAdvanced := 0, lastLedgerIndex := 0, lastError := "" }

/-- `Start`: errors if already running; otherwise installs a cancel
function, marks the service running and resets `ledgersAdvanced` and
`lastError` (but not `lastLedgerIndex`), then spawns the `run`
goroutine.  Returns the updated state and `some errMsg` on failure. -/
def LedgerService.Start (s : LedgerService) : LedgerService × Option String :=
  if s.running then
    (s, some "ledger service is already running")
  else
    ({ s with cancelSet := true, running := true,
              ledgersAdvanced := 0, lastError := "" }, none)

/-- `Stop`: returns immediately if not running; otherwise fires and
clears the cancel function and marks the service not running. -/
def LedgerService.Stop (s : LedgerService) : LedgerService :=
  if s.running then
    { s with cancelSet := false, running := false }
  else
    s

/-- `GetStatus`: a snapshot of the mutable fields. -/
def LedgerService.GetStatus (s : LedgerService) : LedgerServiceStatus :=
  { Running := s.running, Interval := s.interval,
    LedgersAdvanced := s.ledgersAdvanced,
    LastLedgerIndex := s.lastLedgerIndex, LastError := s.lastError }

/-- `advanceLedger`: one advancement attempt.  On a request error or a
decode error it records the message into `lastError` and returns; on
success it increments `ledgersAdvanced` (a `uint64`, hence modulo
`2 ^ 64`), records the returned ledger index and clears `lastError`. -/
def LedgerService.advanceLedger (s : LedgerService) (o : RpcOutcome) :
    LedgerService :=
  match o with
  | .reqErr msg => { s with lastError := msg }
  | .parseErr msg => { s with lastError := msg }
  | .ok idx =>
      { s with ledgersAdvanced := (s.ledgersAdvanced + 1) % 2 ^ 64,
               lastLedgerIndex := idx, lastError := "" }

/-- A whole sequence of advancement attempts, in order. -/
def LedgerService.advanceSeq (s : LedgerService) (os : List RpcOutcome) :
    LedgerService :=
  os.foldl LedgerService.advanceLedger s

/-- The number of successful outcomes in a sequence. -/
def numSuccesses (os : List RpcOutcome) : Nat :=
  (os.filter (fun o => !o.isFailure)).length

/-- One event observed by the `select` statement of the `run` loop:
either the cancellation context became done, or the ticker fired and
the resulting advancement attempt had outcome `o`.  A trace of events
encodes one resolution of the nondeterministic `select`. -/
inductive LoopEvent where
  | done
  | tick (o : RpcOutcome)
deriving DecidableEq, Repr

/-- `true` exactly on the cancellation event. -/
def LoopEvent.isDone : LoopEvent → Bool
  | .done => true
  | .tick _ => false

/-- What an execution of `run` did: the final service state, how many
advancement attempts (`advanceLedger` calls) were made, and whether the
loop returned because the cancellation signal fired (`false` means the
trace ended with the loop still running). -/
structure RunResult where
  state : LedgerService
  attempts : Nat
  stopped : Bool
deriving DecidableEq, Repr

/-- The `for { select ... } }` part of `run`: each `tick` performs one
`advanceLedger` and continues; the first `done` returns at once. -/
def runLoop : LedgerService → List LoopEvent → RunResult
  | s, [] => ⟨s, 0, false⟩
  | s, .done :: _ => ⟨s, 0, true⟩
  | s, .tick o :: rest =>
      let r := runLoop (s.advanceLedger o) rest
      ⟨r.state, r.attempts + 1, r.stopped⟩

/-- `run`: creates the ticker — `time.NewTicker` panics when the
interval is not positive, modelled as `none` — then advances the first
ledger immediately and unconditionally, and enters the event loop.
`first` is the outcome of that initial attempt. -/
def LedgerService.run (s : LedgerService) (first : RpcOutcome)
    (evs : List LoopEvent) : Option RunResult :=
  if s.interval ≤ 0 then
    none
  else
    let r := runLoop (s.advanceLedger first) evs
    some ⟨r.state, r.attempts + 1, r.stopped⟩

/-- The number of ticker events a trace delivers before the first
cancellation event (events after a `done` are never processed). -/
def ticksBeforeDone : List LoopEvent → Nat
  | [] => 0
  | .done :: _ => 0
  | .tick _ :: rest => ticksBeforeDone rest + 1

/-- Result of `WaitForReady`, tagged with the time (in milliseconds
from entry) at which the function returned: success, the context-done
error `ctx.Err()`, or the timeout error. -/
inductive WaitResult where
  | ok (t : Nat)
  | ctxErr (t : Nat)
  | timeout (t : Nat)
deriving DecidableEq, Repr

/-- `WaitForReady` in discrete time (milliseconds; requests themselves
are instantaneous, the only delay being the 500 ms sleep between
retries).  `cancelled t` tells whether `ctx.Done()` has fired by time
`t`, and `ready t` whether the probe request issued at time `t`
succeeds.  The loop runs while `t < deadline`: it first checks the
context, then probes, swallowing the failure and sleeping 500 ms; once
the deadline has passed it returns the timeout error. -/
def WaitForReady (cancelled ready : Nat → Bool) (deadline t : Nat) :
    WaitResult :=
  if h : t < deadline then
    if cancelled t then .ctxErr t
    else if ready t then .ok t
    else WaitForReady cancelled ready deadline (t + 500)
  else .timeout t
termination_by deadline - t
decreasing_by omega

/-- The standalone CLI daemon's `advanceLedger` (`internal/cli/slate.go`):
it ignores the response body, so its only failure mode is a request
error (`some msg`); on success it increments the `uint64` counter. -/
def daemonAdvanceLedger (count : Nat) (requestErr : Option String) : Nat :=
  match requestErr with
  | some _ => count
  | none => (count + 1) % 2 ^ 64

/-- How `stopLedgerDaemon` (`internal/cli/node.go`) found the world:
the PID-file read result, and whether `os.FindProcess` and
`process.Signal` fail for the parsed PID. -/
structure StopEnv where
  pidFileRead : Except String String
  pidFileAbsent : Bool
  findProcessFails : Bool
  signalFails : Bool
deriving Repr

/-- What `stopLedgerDaemon` did: whether it removed the PID file, and
the error it returned (`none` = success). -/
structure StopOutcome where
  removedPidFile : Bool
  result : Option String
deriving DecidableEq, Repr

/-- `stopLedgerDaemon`: reads the PID file; an absent file is treated
as already-stopped (success, nothing touched); any other read error is
returned.  An unparseable PID removes the file and errors; a process
that cannot be found or signalled is treated as already dead (the file
is removed, success); otherwise it signals SIGTERM, waits 500 ms and
removes the file. -/
def stopLedgerDaemon (env : StopEnv) : StopOutcome :=
  match env.pidFileRead with
  | .error msg =>
      if env.pidFileAbsent then ⟨false, none⟩
      else ⟨false, some ("failed to read PID file: " ++ msg)⟩
  | .ok contents =>
      match contents.toInt? with
      | none => ⟨true, some "invalid PID in file"⟩
      | some _ =>
          if env.findProcessFails then ⟨true, none⟩
          else if env.signalFails then ⟨true, none⟩
          else ⟨true, none⟩

/-- A service that has been started (as `Start` leaves a fresh service):
running, with the default 1000 ms interval and zeroed counters. -/
def service0 : LedgerService :=
  { interval := 1000, running := true, cancelSet := true,
    ledgersAdvanced := 0, lastLedgerIndex := 0, lastError := "" }

/-- A stopped service that has history from a previous run. -/
def idleService : LedgerService :=
  { interval := 1000, running := false, cancelSet := false,
    ledgersAdvanced := 3, lastLedgerIndex := 42, lastError := "old" }

/-- A started service configured with a large (60 s) interval. -/
def service60s : LedgerService :=
  { interval := 60000, running := true, cancelSet := true,
    ledgersAdvanced := 0, lastLedgerIndex := 0, lastError := "" }

/-- A `stopLedgerDaemon` environment in which the PID file is absent. -/
def noPidFileEnv : StopEnv :=
  { pidFileRead := .error "no such file or directory",
    pidFileAbsent := true, findProcessFails := false, signalFails := false }

/-- A short mixed sequence of outcomes: two successes, one failure. -/
def demoSeq : List RpcOutcome :=
  [RpcOutcome.ok 5, RpcOutcome.reqErr "connection refused", RpcOutcome.ok 6]

/-- The service `NewLedgerService` builds for interval `0`. -/
def zeroIntervalService : LedgerService :=
  { interval := 0, running := false, cancelSet := false,
    ledgersAdvanced := 0, lastLedgerIndex := 0, lastError := "" }

end Bedrock

namespace Bedrock

theorem numSuccesses_cons (o : RpcOutcome) (os : List RpcOutcome) :
    numSuccesses (o :: os) =
      (if o.isFailure then 0 else 1) + numSuccesses os := by
  cases o <;> simp [numSuccesses, List.filter, RpcOutcome.isFailure, Nat.add_comm]

theorem advanceLedger_count_failure (s : LedgerService) (o : RpcOutcome)
    (h : o.isFailure = true) :
    (s.advanceLedger o).ledgersAdvanced = s.ledgersAdvanced := by
  cases o <;> simp_all [LedgerService.advanceLedger, RpcOutcome.isFailure]

theorem advanceLedger_count_success (s : LedgerService) (idx : Nat) :
    (s.advanceLedger (.ok idx)).ledgersAdvanced =
      (s.ledgersAdvanced + 1) % 2 ^ 64 := rfl

theorem advanceSeq_count (os : List RpcOutcome) :
    ∀ s : LedgerService, s.ledgersAdvanced < 2 ^ 64 →
      (s.advanceSeq os).ledgersAdvanced =
        (s.ledgersAdvanced + numSuccesses os) % 2 ^ 64 := by
  induction os with
  | nil =>
      intro s hs
      have h0 : LedgerService.advanceSeq s [] = s := rfl
      have h1 : numSuccesses ([] : List RpcOutcome) = 0 := rfl
      rw [h0, h1]
      omega
  | cons o os ih =>
      intro s hs
      have hstep : LedgerService.advanceSeq s (o :: os) =
          LedgerService.advanceSeq (s.advanceLedger o) os := rfl
      rw [hstep, numSuccesses_cons]
      cases hfail : o.isFailure with
      | true =>
          have hc : (s.advanceLedger o).ledgersAdvanced = s.ledgersAdvanced :=
            advanceLedger_count_failure s o hfail
          rw [ih (s.advanceLedger o) (by rw [hc]; exact hs), hc]
          simp
      | false =>
          cases o with
          | reqErr m => simp [RpcOutcome.isFailure] at hfail
          | parseErr m => simp [RpcOutcome.isFailure] at hfail
          | ok idx =>
              have hc : (s.advanceLedger (.ok idx)).ledgersAdvanced =
                  (s.ledgersAdvanced + 1) % 2 ^ 64 := rfl
              rw [ih (s.advanceLedger (.ok idx))
                    (by rw [hc]; exact Nat.mod_lt _ (by positivity)), hc,
                  Nat.mod_add_mod]
              simp [Nat.add_comm, Nat.add_assoc, Nat.add_left_comm]

theorem numSuccesses_replicate_ok (n idx : Nat) :
    numSuccesses (List.replicate n (RpcOutcome.ok idx)) = n := by
  induction n with
  | zero => simp [numSuccesses]
  | succ k ih =>
      simp [List.replicate_succ, numSuccesses_cons, RpcOutcome.isFailure]
      omega

/-- C1 (counterexample): the claim quantifies over *every* sequence, but
`ledgersAdvanced` is a Go `uint64` and `atomic.AddUint64` wraps: after a
sequence of `2 ^ 64` successful attempts starting from a freshly started
service, `advanced_count` is `0`, not `N = 2 ^ 64`. -/
theorem advanceSeq_overflow_counterexample :
    (service0.advanceSeq
        (List.replicate (2 ^ 64) (RpcOutcome.ok 7))).ledgersAdvanced = 0 ∧
      numSuccesses (List.replicate (2 ^ 64) (RpcOutcome.ok 7)) = 2 ^ 64 ∧
      (0 : Nat) ≠ 2 ^ 64 := by
  refine ⟨?_, numSuccesses_replicate_ok _ _, by positivity⟩
  rw [advanceSeq_count _ service0 (by positivity),
      numSuccesses_replicate_ok]
  simp [service0]

/-- C1 (amended): starting from `advanced_count = 0`, any sequence of
attempts with `N` successes and `M` failures, in any order, leaves
`advanced_count = N mod 2 ^ 64`; in particular it equals exactly `N`
whenever `N < 2 ^ 64`. -/
theorem advanceSeq_count_eq_numSuccesses (os : List RpcOutcome)
    (s : LedgerService) (h0 : s.ledgersAdvanced = 0) :
    (s.advanceSeq os).ledgersAdvanced = numSuccesses os % 2 ^ 64 ∧
      (numSuccesses os < 2 ^ 64 →
        (s.advanceSeq os).ledgersAdvanced = numSuccesses os) := by
  have h := advanceSeq_count os s (by rw [h0]; positivity)
  rw [h0] at h
  simp only [Nat.zero_add] at h
  exact ⟨h, fun hlt => by rw [h, Nat.mod_eq_of_lt hlt]⟩

/-- C1 (witness): on the concrete mixed sequence `demoSeq` (successes
interleaved with a failure), the count equals the number of successes. -/
theorem advanceSeq_count_witness :
    (service0.advanceSeq demoSeq).ledgersAdvanced = numSuccesses demoSeq :=
  (advanceSeq_count_eq_numSuccesses demoSeq service0 rfl).2 (by decide)

/-- C2: a success clears `last_error` (also right after a failure of
either kind), and each failure overwrites `last_error` with its own
message, never accumulating previous ones. -/
theorem lastError_cleared_on_success (s : LedgerService)
    (m m' : String) (i : Nat) :
    ((s.advanceLedger (.reqErr m)).advanceLedger (.ok i)).lastError = "" ∧
      ((s.advanceLedger (.parseErr m)).advanceLedger (.ok i)).lastError = "" ∧
      (s.advanceLedger (.reqErr m')).lastError = m' ∧
      (s.advanceLedger (.parseErr m')).lastError = m' ∧
      (s.advanceLedger (.ok i)).lastError = "" := by
  refine ⟨rfl, rfl, rfl, rfl, rfl⟩

/-- C3: a failed attempt (request error or decode error) changes only
`last_error` in the observable status: `advanced_count`,
`last_ledger_index`, `running` and `interval` keep their values, and the
internal cancel field is untouched as well. -/
theorem failed_attempt_frame (s : LedgerService) (m : String) :
    (s.advanceLedger (.reqErr m)).GetStatus =
        { s.GetStatus with LastError := m } ∧
      (s.advanceLedger (.parseErr m)).GetStatus =
        { s.GetStatus with LastError := m } ∧
      (s.advanceLedger (.reqErr m)).cancelSet = s.cancelSet ∧
      (s.advanceLedger (.parseErr m)).cancelSet = s.cancelSet := by
  refine ⟨rfl, rfl, rfl, rfl⟩

theorem runLoop_attempts (evs : List LoopEvent) :
    ∀ s : LedgerService, (runLoop s evs).attempts = ticksBeforeDone evs := by
  induction evs with
  | nil => intro s; rfl
  | cons e rest ih =>
      intro s
      cases e with
      | done => rfl
      | tick o => simp [runLoop, ticksBeforeDone, ih]

theorem runLoop_stopped (evs : List LoopEvent) :
    ∀ s : LedgerService,
      (runLoop s evs).stopped = evs.any LoopEvent.isDone := by
  induction evs with
  | nil => intro s; rfl
  | cons e rest ih =>
      intro s
      cases e with
      | done => simp [runLoop, LoopEvent.isDone]
      | tick o => simp [runLoop, LoopEvent.isDone, ih]

theorem runLoop_stops_at_first_done (pre : List LoopEvent)
    (hpre : ∀ e ∈ pre, e.isDone = false) :
    ∀ (s : LedgerService) (post : List LoopEvent),
      runLoop s (pre ++ LoopEvent.done :: post) =
        runLoop s (pre ++ [LoopEvent.done]) := by
  induction pre with
  | nil => intro s post; rfl
  | cons e rest ih =>
      intro s post
      cases e with
      | done => simp [LoopEvent.isDone] at hpre
      | tick o =>
          have hrest : ∀ e ∈ rest, e.isDone = false := fun e he =>
            hpre e (List.mem_cons_of_mem _ he)
          simp [runLoop, ih hrest]

theorem ticksBeforeDone_no_done (evs : List LoopEvent)
    (h : ∀ e ∈ evs, e.isDone = false) :
    ticksBeforeDone evs = evs.length := by
  induction evs with
  | nil => rfl
  | cons e rest ih =>
      cases e with
      | done => simp [LoopEvent.isDone] at h
      | tick o =>
          have hrest : ∀ e ∈ rest, e.isDone = false := fun e he =>
            h e (List.mem_cons_of_mem _ he)
          simp [ticksBeforeDone, ih hrest]

theorem run_unfold (s : LedgerService) (first : RpcOutcome)
    (evs : List LoopEvent) (h : 0 < s.interval) :
    s.run first evs =
      some ⟨(runLoop (s.advanceLedger first) evs).state,
            (runLoop (s.advanceLedger first) evs).attempts + 1,
            (runLoop (s.advanceLedger first) evs).stopped⟩ := by
  have hn : ¬ s.interval ≤ 0 := by omega
  simp [LedgerService.run, hn]

/-- C4 (counterexample): with the cancellation signal already fired on
entry (the trace starts with `done`), `run` still performs one
advancement attempt — the immediate one precedes any check of
`ctx.Done()` — contradicting "no advancement attempt is performed at
all". -/
theorem run_attempts_cancelled_entry_counterexample :
    Option.map RunResult.attempts
        (service0.run (RpcOutcome.ok 3) [LoopEvent.done]) = some 1 ∧
      some 1 ≠ some 0 := by
  refine ⟨rfl, by decide⟩

/-- C4 (amended): once inside the loop, the first `done` event makes
`run` return at once, with no further attempt and no processing of any
later event; but `run` always performs the one initial attempt before
its first look at the cancellation signal, so a signal that has already
fired on entry still sees exactly that one attempt. -/
theorem run_returns_promptly_on_done (s : LedgerService) (o : RpcOutcome)
    (h : 0 < s.interval) :
    (∀ evs : List LoopEvent,
        s.run o (LoopEvent.done :: evs) =
          some ⟨s.advanceLedger o, 1, true⟩) ∧
      (∀ pre post : List LoopEvent, (∀ e ∈ pre, e.isDone = false) →
        s.run o (pre ++ LoopEvent.done :: post) =
          s.run o (pre ++ [LoopEvent.done])) := by
  constructor
  · intro evs
    rw [run_unfold s o _ h]
    rfl
  · intro pre post hpre
    rw [run_unfold s o _ h, run_unfold s o _ h,
        runLoop_stops_at_first_done pre hpre]

/-- C4 (witness of the amended claim): a concrete trace whose later
events are discarded once `done` is seen. -/
theorem run_returns_promptly_on_done_witness :
    service0.run (RpcOutcome.ok 2)
        [LoopEvent.done, LoopEvent.tick (RpcOutcome.ok 3)] =
      some ⟨service0.advanceLedger (RpcOutcome.ok 2), 1, true⟩ :=
  (run_returns_promptly_on_done service0 (RpcOutcome.ok 2) (by decide)).1
    [LoopEvent.tick (RpcOutcome.ok 3)]

/-- C5: `run` makes its first advancement attempt immediately: on a
trace in which no tick has yet been delivered the attempt count is
already `1`, and on any trace the attempt count is one (the immediate
attempt) plus one per tick delivered before cancellation. -/
theorem run_immediate_first_attempt (s : LedgerService) (o : RpcOutcome)
    (h : 0 < s.interval) :
    Option.map RunResult.attempts (s.run o []) = some 1 ∧
      (∀ evs : List LoopEvent,
        Option.map RunResult.attempts (s.run o evs) =
          some (1 + ticksBeforeDone evs)) := by
  constructor
  · rw [run_unfold s o [] h]; rfl
  · intro evs
    rw [run_unfold s o evs h]
    simp [runLoop_attempts, Nat.add_comm]

/-- C5 (witness): with a 60 s interval and no tick delivered yet, one
attempt has already been made. -/
theorem run_immediate_first_attempt_witness :
    Option.map RunResult.attempts (service60s.run (RpcOutcome.ok 1) []) =
      some 1 :=
  (run_immediate_first_attempt service60s (RpcOutcome.ok 1) (by decide)).1

/-- C9: whether the loop stops is decided solely by the cancellation
events of the trace, never by the outcomes of the attempts; on a trace
with no cancellation the loop is still running at the end and has made
one attempt per tick plus the initial one — failed attempts neither
abort the loop nor cause an extra retry within a tick. -/
theorem run_stops_only_on_done (s : LedgerService) (o : RpcOutcome)
    (evs : List LoopEvent) (h : 0 < s.interval) :
    Option.map RunResult.stopped (s.run o evs) =
        some (evs.any LoopEvent.isDone) ∧
      ((∀ e ∈ evs, e.isDone = false) →
        Option.map RunResult.stopped (s.run o evs) = some false ∧
          Option.map RunResult.attempts (s.run o evs) =
            some (1 + evs.length)) := by
  constructor
  · rw [run_unfold s o evs h]
    simp [runLoop_stopped]
  · intro hnd
    constructor
    · rw [run_unfold s o evs h]
      simp [runLoop_stopped]
      intro e he
      exact hnd e he
    · rw [run_unfold s o evs h]
      simp [runLoop_attempts, ticksBeforeDone_no_done evs hnd, Nat.add_comm]

/-- C9 (witness): two consecutive failed attempts neither stop the loop
nor change the one-attempt-per-tick accounting. -/
theorem run_stops_only_on_done_witness :
    Option.map RunResult.stopped
        (service0.run (RpcOutcome.reqErr "boom")
          [LoopEvent.tick (RpcOutcome.reqErr "a"),
           LoopEvent.tick (RpcOutcome.reqErr "b")]) = some false ∧
      Option.map RunResult.attempts
        (service0.run (RpcOutcome.reqErr "boom")
          [LoopEvent.tick (RpcOutcome.reqErr "a"),
           LoopEvent.tick (RpcOutcome.reqErr "b")]) = some 3 :=
  (run_stops_only_on_done service0 (RpcOutcome.reqErr "boom")
      [LoopEvent.tick (RpcOutcome.reqErr "a"),
       LoopEvent.tick (RpcOutcome.reqErr "b")] (by decide)).2 (by decide)

theorem waitForReady_never_ready (cancelled ready : Nat → Bool) (d : Nat)
    (hnc : ∀ u, cancelled u = false) (hnr : ∀ u, ready u = false) :
    ∀ k t, d - t ≤ k → t < d + 500 →
      ∃ T, WaitForReady cancelled ready d t = .timeout T ∧
        d ≤ T ∧ T < d + 500 := by
  intro k
  induction k with
  | zero =>
      intro t hk ht
      have hnlt : ¬ t < d := by omega
      rw [WaitForReady, dif_neg hnlt]
      exact ⟨t, rfl, by omega, ht⟩
  | succ k ih =>
      intro t hk ht
      by_cases hlt : t < d
      · rw [WaitForReady, dif_pos hlt, hnc t, hnr t,
            if_neg Bool.false_ne_true, if_neg Bool.false_ne_true]
        exact ih (t + 500) (by omega) (by omega)
      · rw [WaitForReady, dif_neg hlt]
        exact ⟨t, rfl, by omega, ht⟩

theorem waitForReady_no_ctxErr (cancelled ready : Nat → Bool) (d : Nat)
    (hnc : ∀ u, cancelled u = false) :
    ∀ k t, d - t ≤ k → ∀ T,
      WaitForReady cancelled ready d t ≠ .ctxErr T := by
  intro k
  induction k with
  | zero =>
      intro t hk T
      have hnlt : ¬ t < d := by omega
      rw [WaitForReady, dif_neg hnlt]
      simp
  | succ k ih =>
      intro t hk T
      by_cases hlt : t < d
      · rw [WaitForReady, dif_pos hlt, hnc t, if_neg Bool.false_ne_true]
        by_cases hr : ready t = true
        · rw [if_pos hr]; simp
        · rw [if_neg hr]
          exact ih (t + 500) (by omega) T
      · rw [WaitForReady, dif_neg hlt]
        simp

theorem waitForReady_first_success (cancelled ready : Nat → Bool) (d : Nat)
    (hnc : ∀ u, cancelled u = false) :
    ∀ k t, (∀ j, j < k → ready (t + 500 * j) = false) →
      ready (t + 500 * k) = true → t + 500 * k < d →
      WaitForReady cancelled ready d t = .ok (t + 500 * k) := by
  intro k
  induction k with
  | zero =>
      intro t _ hr hlt
      simp only [Nat.mul_zero, Nat.add_zero] at hr hlt
      rw [WaitForReady, dif_pos hlt, hnc t, if_neg Bool.false_ne_true,
          if_pos hr]
      simp
  | succ k ih =>
      intro t hprev hr hlt
      have h0 : ready t = false := by
        have := hprev 0 (by omega)
        simpa using this
      have htlt : t < d := by omega
      rw [WaitForReady, dif_pos htlt, hnc t, if_neg Bool.false_ne_true,
          h0, if_neg Bool.false_ne_true]
      have harith : t + 500 * (k + 1) = t + 500 + 500 * k := by ring
      rw [harith] at hr hlt ⊢
      exact ih (t + 500)
        (fun j hj => by
          have := hprev (j + 1) (by omega)
          have hj' : t + 500 * (j + 1) = t + 500 + 500 * j := by ring
          rwa [hj'] at this)
        hr hlt

/-- C6: with the caller not cancelling, `WaitForReady` probes the
endpoint at 500 ms steps; individual failures are swallowed and the
first in-deadline success returns success; against an endpoint that
never responds the only reported error is the deadline timeout, which
occurs no earlier than the deadline and strictly before the deadline
plus one 500 ms poll interval. -/
theorem WaitForReady_poll_semantics (cancelled ready : Nat → Bool)
    (d : Nat) (hnc : ∀ u, cancelled u = false) :
    ((∀ u, ready u = false) →
        ∃ T, WaitForReady cancelled ready d 0 = .timeout T ∧
          d ≤ T ∧ T < d + 500) ∧
      (∀ T, WaitForReady cancelled ready d 0 ≠ .ctxErr T) ∧
      (∀ k, (∀ j, j < k → ready (500 * j) = false) →
        ready (500 * k) = true → 500 * k < d →
        WaitForReady cancelled ready d 0 = .ok (500 * k)) := by
  refine ⟨?_, ?_, ?_⟩
  · intro hnr
    exact waitForReady_never_ready cancelled ready d hnc hnr d 0
      (by omega) (by omega)
  · exact waitForReady_no_ctxErr cancelled ready d hnc d 0 (by omega)
  · intro k hprev hr hlt
    have := waitForReady_first_success cancelled ready d hnc k 0
      (fun j hj => by simpa using hprev j hj) (by simpa using hr)
      (by simpa using hlt)
    simpa using this

/-- C6 (witness, Scenario A): a 2000 ms deadline against an endpoint
that never responds times out at a time in the interval `[2000, 2500)`
(here exactly 2000 ms). -/
theorem WaitForReady_poll_semantics_witness :
    ∃ T, WaitForReady (fun _ => false) (fun _ => false) 2000 0 =
        WaitResult.timeout T ∧ 2000 ≤ T ∧ T < 2500 :=
  (WaitForReady_poll_semantics (fun _ => false) (fun _ => false) 2000
      (fun _ => rfl)).1 (fun _ => rfl)

/-- C7: stopping when nothing is running is not an error: the
detached-variant `stopLedgerDaemon` returns success on an absent PID
file (touching nothing), and the in-process `Stop` on a non-running
service returns with the state completely unchanged. -/
theorem stop_idempotent (env : StopEnv) (s : LedgerService) (msg : String) :
    (env.pidFileRead = .error msg → env.pidFileAbsent = true →
        stopLedgerDaemon env = ⟨false, none⟩) ∧
      (s.running = false → s.Stop = s) := by
  constructor
  · intro hread habs
    simp [stopLedgerDaemon, hread, habs]
  · intro hnr
    simp [LedgerService.Stop, hnr]

/-- C7 (witness): the concrete absent-PID-file environment and a
concrete stopped service. -/
theorem stop_idempotent_witness :
    stopLedgerDaemon noPidFileEnv = ⟨false, none⟩ ∧
      idleService.Stop = idleService :=
  ⟨(stop_idempotent noPidFileEnv idleService
      "no such file or directory").1 rfl rfl,
   (stop_idempotent noPidFileEnv idleService
      "no such file or directory").2 rfl⟩

/-- C8 (counterexample): with interval `0` (which is `≤ 0`), neither
construction nor start is rejected: `NewLedgerService` succeeds,
`Start` returns no error and the service enters the running state; the
background loop then dies (`time.NewTicker` panics on a non-positive
interval, modelled as `none`) rather than never having been admitted. -/
theorem nonpositive_interval_not_rejected :
    NewLedgerService (Except.ok ()) 0 = Except.ok zeroIntervalService ∧
      (zeroIntervalService.Start).2 = none ∧
      (zeroIntervalService.Start).1.running = true ∧
      (zeroIntervalService.Start).1.run (RpcOutcome.ok 1) [] = none := by
  refine ⟨rfl, rfl, rfl, rfl⟩

/-- C8 (amended): the interval is never validated: for any interval,
construction succeeds (given a good RPC config) and `Start` succeeds
and marks the service running; for a non-positive interval the
background loop then crashes at ticker creation (no advancement ever
happens), while for a positive interval the loop runs normally. -/
theorem interval_not_validated (i : Int) (s : LedgerService)
    (h : NewLedgerService (Except.ok ()) i = Except.ok s) :
    ((s.Start).2 = none ∧ (s.Start).1.running = true) ∧
      (i ≤ 0 → ∀ (o : RpcOutcome) (evs : List LoopEvent),
        (s.Start).1.run o evs = none) ∧
      (0 < i → ∀ (o : RpcOutcome) (evs : List LoopEvent),
        ∃ r, (s.Start).1.run o evs = some r) := by
  have hs : s = { interval := i, running := false, cancelSet := false,
                  ledgersAdvanced := 0, lastLedgerIndex := 0,
                  lastError := "" } := by
    simp only [NewLedgerService, Except.ok.injEq] at h
    exact h.symm
  subst hs
  refine ⟨⟨rfl, rfl⟩, ?_, ?_⟩
  · intro hle o evs
    simp [LedgerService.Start, LedgerService.run, hle]
  · intro hpos o evs
    exact ⟨_, run_unfold _ o evs (by simpa [LedgerService.Start] using hpos)⟩

/-- C8 (witness of the amended claim): at the concrete interval `0` the
started service's loop crashes immediately. -/
theorem interval_not_validated_witness :
    (zeroIntervalService.Start).1.run (RpcOutcome.ok 1) [LoopEvent.done] =
      none :=
  (interval_not_validated 0 zeroIntervalService rfl).2.1 (by decide)
    (RpcOutcome.ok 1) [LoopEvent.done]

/-- C10: `Start` on a running service errors and changes nothing; a
successful `Start` resets `advanced_count` to `0` and `last_error` to
empty, marks the service running, and leaves `last_ledger_index` (and
the interval) untouched, so the index survives a stop/start cycle. -/
theorem Start_semantics (s : LedgerService) :
    (s.running = true →
        s.Start = (s, some "ledger service is already running")) ∧
      (s.running = false →
        (s.Start).2 = none ∧
          (s.Start).1.running = true ∧
          (s.Start).1.ledgersAdvanced = 0 ∧
          (s.Start).1.lastError = "" ∧
          (s.Start).1.lastLedgerIndex = s.lastLedgerIndex ∧
          (s.Start).1.interval = s.interval) := by
  constructor
  · intro hr
    simp [LedgerService.Start, hr]
  · intro hnr
    simp [LedgerService.Start, hnr]

/-- C10 (witness): a running service is rejected unchanged; a stopped
service with `last_ledger_index = 42` keeps it across `Start` while the
counter and error are reset. -/
theorem Start_semantics_witness :
    service0.Start = (service0, some "ledger service is already running") ∧
      (idleService.Start).2 = none ∧
      (idleService.Start).1.ledgersAdvanced = 0 ∧
      (idleService.Start).1.lastError = "" ∧
      (idleService.Start).1.lastLedgerIndex = 42 :=
  ⟨(Start_semantics service0).1 rfl,
   ((Start_semantics idleService).2 rfl).1,
   ((Start_semantics idleService).2 rfl).2.2.1,
   ((Start_semantics idleService).2 rfl).2.2.2.1,
   (((Start_semantics idleService).2 rfl).2.2.2.2.1).trans rfl⟩

end Bedrock
